import Mathlib

set_option maxHeartbeats 1000000

/-
Verification of the RON codec's encoder and error model (src/encode.rs,
src/error.rs).  Output is modelled as a String standing for the byte
sequence written to the io::Write sink; every byte the encoder emits is
valid UTF-8, so this is faithful.
-/

/-- ErrorCode (src/error.rs, lines 8-48): the closed taxonomy of syntax-error
kinds. -/
inductive ErrorCode where
  | KeyMustBeAValue
  | InvalidEscape
  | InvalidNumber
  | InvalidUnicodeCodePoint
  | NotFourDigit
  | NotUtf8
  | UnknownVariant
  | UnknownField (field : String)
  | MissingField (field : String)
  | ExpectedColon
  | ExpectedConversion
  | ExpectedEnumEnd
  | ExpectedEnumEndToken
  | ExpectedEnumMapStart
  | ExpectedEnumToken
  | ExpectedEnumVariantString
  | ExpectedListCommaOrEnd
  | ExpectedName
  | ExpectedObjectCommaOrEnd
  | ExpectedSomeIdent
  | ExpectedSomeValue
  | LoneLeadingSurrogateInHexEscape
  | UnexpectedEndOfHexEscape
  | UnrecognizedHex
  | TrailingCharacters
  | EOFWhileParsingObject
  | EOFWhileParsingString
  | EOFWhileParsingArray
  | EOFWhileParsingMap
  | EOFWhileParsingValue
  deriving DecidableEq

/-- Error (src/error.rs, lines 89-94).  The Io case carries an opaque
io::Error, modelled here by its message text. -/
inductive Error where
  | Syntax (code : ErrorCode) (line col : Nat)
  | Io (msg : String)
  | MissingField (field : String)
  deriving DecidableEq

/-- serde's de::value::Error, the framework error type converted by the
From impl in src/error.rs lines 134-151. -/
inductive DeValueError where
  | SyntaxError
  | EndOfStreamError
  | UnknownFieldError (field : String)
  | MissingFieldError (field : String)
  deriving DecidableEq

/-- de::Error::syntax_error for Error (src/error.rs line 154): builds a
Syntax error with position (0, 0). -/
def Error.deSyntaxError : Error := .Syntax .ExpectedSomeValue 0 0

/-- de::Error::end_of_stream_error for Error (src/error.rs line 158). -/
def Error.endOfStreamError : Error := .Syntax .EOFWhileParsingValue 0 0

/-- de::Error::unknown_field_error for Error (src/error.rs line 162). -/
def Error.unknownFieldError (field : String) : Error :=
  .Syntax (.UnknownField field) 0 0

/-- de::Error::missing_field_error for Error (src/error.rs line 166). -/
def Error.missingFieldError (field : String) : Error := .MissingField field

/-- From de::value::Error for Error (src/error.rs lines 134-151). -/
def Error.fromDeValueError : DeValueError → Error
  | .SyntaxError => Error.deSyntaxError
  | .EndOfStreamError => Error.endOfStreamError
  | .UnknownFieldError field => .Syntax (.UnknownField field) 0 0
  | .MissingFieldError field => Error.missingFieldError field

/-- The Formatter trait (src/encode.rs, lines 188-200).  Each operation takes
the formatter's own state and returns the new state together with the bytes
it wrote to the sink.  The field fopen stands for the trait method named
open (a Lean keyword). -/
structure Formatter (σ : Type) where
  fopen : σ → Char → σ × String
  comma : σ → Bool → σ × String
  colon : σ → σ × String
  close : σ → Char → σ × String

/-- CompactFormatter (src/encode.rs, lines 202-232): stateless; fields in
the order open, comma, colon, close. -/
def CompactFormatter : Formatter Unit :=
  ⟨fun _ ch => ((), ch.toString),
   fun _ first => ((), if first then "" else ","),
   fun _ => ((), ":"),
   fun _ ch => ((), ch.toString)⟩

/-- fn indent (src/encode.rs, lines 289-297): writes the indent unit s
n times. -/
def indent : Nat → String → String
  | 0, _ => ""
  | n + 1, s => s ++ indent n s

/-- PrettyFormatter (src/encode.rs, lines 234-287).  Its state is
current_indent; u is the indent unit (PrettyFormatter::new uses two
spaces).  Rust decrements current_indent in close with usize arithmetic,
which panics at depth 0; the encoder only calls close after a matching
open, so depth is positive there and Nat subtraction agrees. -/
def PrettyFormatter (u : String) : Formatter Nat :=
  ⟨fun d ch => (d + 1, ch.toString),
   fun d first => (d, (if first then "\n" else ",\n") ++ indent d u),
   fun d => (d, ": "),
   fun d ch => (d - 1, "\n" ++ indent (d - 1) u ++ ch.toString)⟩

mutual
/-- The stream of values a serde traversal can present to the Encoder
(one constructor per visit method of src/encode.rs, lines 57-186).
Sequences and maps carry the length their visitor reports (visitor.len(),
an Option) alongside their elements; floats are carried as the text their
Display impl produces. -/
inductive Value where
  | vbool (b : Bool)
  | vint (n : Int)
  | vfloat (text : String)
  | vchar (c : Char)
  | vstr (s : String)
  | vunit
  | vnone
  | vsome (v : Value)
  | vseq (len : Option Nat) (elems : ValueList)
  | vmap (len : Option Nat) (entries : PairList)
  | venumUnit (name variant : String)
  | venumSeq (name variant : String) (len : Option Nat) (elems : ValueList)
  | venumMap (name variant : String) (len : Option Nat) (entries : PairList)

/-- A list of values (kept mutually inductive with Value so the encoder
recursion is structural). -/
inductive ValueList where
  | nil
  | cons (v : Value) (tl : ValueList)

/-- A list of key/value pairs. -/
inductive PairList where
  | nil
  | cons (k v : Value) (tl : PairList)
end

/-- The Encoder's state apart from the sink (src/encode.rs, lines 11-15):
the formatter state and the first_line flag (initialised to false in
with_formatter). -/
structure EncState (σ : Type) where
  fmt : σ
  first_line : Bool

mutual
/-- The ser::Serializer impl for Encoder (src/encode.rs, lines 57-186).
Returns the state after the visit together with the bytes written.
visit_enum_seq and visit_enum_map call self.visit_seq / self.visit_map in
Rust; those calls are inlined here (the vseq/vmap case bodies repeated
verbatim) so that the recursion stays structural. -/
def serialize (F : Formatter σ) : Value → EncState σ → EncState σ × String
  | .vbool b, st => (st, if b then "true" else "false")
  | .vint n, st => (st, toString n)
  | .vfloat text, st => (st, text)
  | .vchar c, st => (st, "'" ++ c.toString ++ "'")
  | .vstr s, st => (st, "\"" ++ s ++ "\"")
  | .vunit, st => (st, "()")
  | .vnone, st => (st, "()")
  | .vsome v, st => serialize F v st
  | .venumUnit name _variant, st => (st, "¶" ++ name ++ "¶")
  | .vseq len elems, st =>
    match len with
    | some 0 => (st, "[]")
    | _ =>
      let p1 := F.fopen st.fmt '['
      let p2 := visit_seq_elts F elems ⟨p1.1, true⟩
      let p3 := F.close p2.1.fmt ']'
      (⟨p3.1, p2.1.first_line⟩, p1.2 ++ p2.2 ++ p3.2)
  | .vmap len entries, st =>
    match len with
    | some 0 => (st, "{}")
    | _ =>
      let p1 := F.fopen st.fmt '{'
      let p2 := visit_map_elts F entries ⟨p1.1, true⟩
      let p3 := F.close p2.1.fmt '}'
      (⟨p3.1, p2.1.first_line⟩, p1.2 ++ p2.2 ++ p3.2)
  | .venumSeq _name variant len elems, st =>
    let p1 := F.fopen st.fmt '{'
    let p2 := F.comma p1.1 true
    let p3 := F.colon p2.1
    let p4 :=
      match len with
      | some 0 => ((⟨p3.1, st.first_line⟩ : EncState σ), "[]")
      | _ =>
        let q1 := F.fopen p3.1 '['
        let q2 := visit_seq_elts F elems ⟨q1.1, true⟩
        let q3 := F.close q2.1.fmt ']'
        ((⟨q3.1, q2.1.first_line⟩ : EncState σ), q1.2 ++ q2.2 ++ q3.2)
    let p5 := F.close p4.1.fmt '}'
    (⟨p5.1, p4.1.first_line⟩,
      p1.2 ++ p2.2 ++ ("\"" ++ variant ++ "\"") ++ p3.2 ++ p4.2 ++ p5.2)
  | .venumMap _name variant len entries, st =>
    let p1 := F.fopen st.fmt '{'
    let p2 := F.comma p1.1 true
    let p3 := F.colon p2.1
    let p4 :=
      match len with
      | some 0 => ((⟨p3.1, st.first_line⟩ : EncState σ), "{}")
      | _ =>
        let q1 := F.fopen p3.1 '{'
        let q2 := visit_map_elts F entries ⟨q1.1, true⟩
        let q3 := F.close q2.1.fmt '}'
        ((⟨q3.1, q2.1.first_line⟩ : EncState σ), q1.2 ++ q2.2 ++ q3.2)
    let p5 := F.close p4.1.fmt '}'
    (⟨p5.1, p4.1.first_line⟩,
      p1.2 ++ p2.2 ++ ("\"" ++ variant ++ "\"") ++ p3.2 ++ p4.2 ++ p5.2)

/-- visit_seq_elt (src/encode.rs, lines 131-138) applied to each element in
turn: comma with the current first_line flag, then the flag is set to true
(sic: the source sets it to true, not false), then the element. -/
def visit_seq_elts (F : Formatter σ) : ValueList → EncState σ → EncState σ × String
  | .nil, st => (st, "")
  | .cons v tl, st =>
    let p1 := F.comma st.fmt st.first_line
    let p2 := serialize F v ⟨p1.1, true⟩
    let p3 := visit_seq_elts F tl p2.1
    (p3.1, p1.2 ++ p2.2 ++ p3.2)

/-- visit_map_elt (src/encode.rs, lines 170-180) applied to each entry in
turn: comma with the current first_line flag, the flag is set to false, then
key, colon, value. -/
def visit_map_elts (F : Formatter σ) : PairList → EncState σ → EncState σ × String
  | .nil, st => (st, "")
  | .cons k v tl, st =>
    let p1 := F.comma st.fmt st.first_line
    let p2 := serialize F k ⟨p1.1, false⟩
    let p3 := F.colon p2.1.fmt
    let p4 := serialize F v ⟨p3.1, p2.1.first_line⟩
    let p5 := visit_map_elts F tl p4.1
    (p5.1, p1.2 ++ p2.2 ++ p3.2 ++ p4.2 ++ p5.2)
end

/-- to_writer with a fresh compact Encoder (src/encode.rs, lines 300-307):
the bytes written for one value, starting from first_line = false. -/
def encodeCompact (v : Value) : String :=
  (serialize CompactFormatter v ⟨(), false⟩).2

/-- to_writer_pretty (src/encode.rs, lines 309-317): Encoder::pretty uses
PrettyFormatter::new(), i.e. a two-space indent unit and depth 0. -/
def encodePretty (v : Value) : String :=
  (serialize (PrettyFormatter "  ") v ⟨0, false⟩).2

/-- An io::Write sink for the fallible model of the encoder: write_all may
fail (an Err of io::Result), modelled by returning none; the error then
propagates through every try! in src/encode.rs. -/
structure Sink (ω : Type) where
  write_all : ω → String → Option ω

/-- A Vec u8 sink: "We are writing to a Vec, which doesn't fail."
(src/encode.rs, lines 324-326).  write_all always succeeds and appends. -/
def VecSink : Sink String := ⟨fun w s => some (w ++ s)⟩

mutual
/-- The ser::Serializer impl again, now with the io::Result channel kept:
every fragment of output goes through the sink's write_all, and a failed
write aborts the visit (none).  With an infallible sink this agrees with
serialize (theorem serializeE_vec below). -/
def serializeE (S : Sink ω) (F : Formatter σ) :
    Value → ω → EncState σ → Option (ω × EncState σ)
  | .vbool b, w, st =>
    (S.write_all w (if b then "true" else "false")).map fun w2 => (w2, st)
  | .vint n, w, st => (S.write_all w (toString n)).map fun w2 => (w2, st)
  | .vfloat text, w, st => (S.write_all w text).map fun w2 => (w2, st)
  | .vchar c, w, st =>
    (S.write_all w ("'" ++ c.toString ++ "'")).map fun w2 => (w2, st)
  | .vstr s, w, st =>
    (S.write_all w ("\"" ++ s ++ "\"")).map fun w2 => (w2, st)
  | .vunit, w, st => (S.write_all w "()").map fun w2 => (w2, st)
  | .vnone, w, st => (S.write_all w "()").map fun w2 => (w2, st)
  | .vsome v, w, st => serializeE S F v w st
  | .venumUnit name _variant, w, st =>
    (S.write_all w ("¶" ++ name ++ "¶")).map fun w2 => (w2, st)
  | .vseq len elems, w, st =>
    match len with
    | some 0 => (S.write_all w "[]").map fun w2 => (w2, st)
    | _ => do
      let p1 := F.fopen st.fmt '['
      let w1 ← S.write_all w p1.2
      let r2 ← visit_seq_eltsE S F elems w1 ⟨p1.1, true⟩
      let p3 := F.close r2.2.fmt ']'
      let w3 ← S.write_all r2.1 p3.2
      some (w3, (⟨p3.1, r2.2.first_line⟩ : EncState σ))
  | .vmap len entries, w, st =>
    match len with
    | some 0 => (S.write_all w "{}").map fun w2 => (w2, st)
    | _ => do
      let p1 := F.fopen st.fmt '{'
      let w1 ← S.write_all w p1.2
      let r2 ← visit_map_eltsE S F entries w1 ⟨p1.1, true⟩
      let p3 := F.close r2.2.fmt '}'
      let w3 ← S.write_all r2.1 p3.2
      some (w3, (⟨p3.1, r2.2.first_line⟩ : EncState σ))
  | .venumSeq _name variant len elems, w, st => do
    let p1 := F.fopen st.fmt '{'
    let w1 ← S.write_all w p1.2
    let p2 := F.comma p1.1 true
    let w2 ← S.write_all w1 p2.2
    let w3 ← S.write_all w2 ("\"" ++ variant ++ "\"")
    let p3 := F.colon p2.1
    let w4 ← S.write_all w3 p3.2
    let r4 ← (match len with
      | some 0 =>
        (S.write_all w4 "[]").map
          fun w5 => (w5, (⟨p3.1, st.first_line⟩ : EncState σ))
      | _ => do
        let q1 := F.fopen p3.1 '['
        let u1 ← S.write_all w4 q1.2
        let r2 ← visit_seq_eltsE S F elems u1 ⟨q1.1, true⟩
        let q3 := F.close r2.2.fmt ']'
        let u3 ← S.write_all r2.1 q3.2
        some (u3, (⟨q3.1, r2.2.first_line⟩ : EncState σ)))
    let p5 := F.close r4.2.fmt '}'
    let w6 ← S.write_all r4.1 p5.2
    some (w6, (⟨p5.1, r4.2.first_line⟩ : EncState σ))
  | .venumMap _name variant len entries, w, st => do
    let p1 := F.fopen st.fmt '{'
    let w1 ← S.write_all w p1.2
    let p2 := F.comma p1.1 true
    let w2 ← S.write_all w1 p2.2
    let w3 ← S.write_all w2 ("\"" ++ variant ++ "\"")
    let p3 := F.colon p2.1
    let w4 ← S.write_all w3 p3.2
    let r4 ← (match len with
      | some 0 =>
        (S.write_all w4 "{}").map
          fun w5 => (w5, (⟨p3.1, st.first_line⟩ : EncState σ))
      | _ => do
        let q1 := F.fopen p3.1 '{'
        let u1 ← S.write_all w4 q1.2
        let r2 ← visit_map_eltsE S F entries u1 ⟨q1.1, true⟩
        let q3 := F.close r2.2.fmt '}'
        let u3 ← S.write_all r2.1 q3.2
        some (u3, (⟨q3.1, r2.2.first_line⟩ : EncState σ)))
    let p5 := F.close r4.2.fmt '}'
    let w6 ← S.write_all r4.1 p5.2
    some (w6, (⟨p5.1, r4.2.first_line⟩ : EncState σ))

/-- visit_seq_elt with the io::Result channel kept. -/
def visit_seq_eltsE (S : Sink ω) (F : Formatter σ) :
    ValueList → ω → EncState σ → Option (ω × EncState σ)
  | .nil, w, st => some (w, st)
  | .cons v tl, w, st => do
    let p1 := F.comma st.fmt st.first_line
    let w1 ← S.write_all w p1.2
    let r2 ← serializeE S F v w1 ⟨p1.1, true⟩
    visit_seq_eltsE S F tl r2.1 r2.2

/-- visit_map_elt with the io::Result channel kept. -/
def visit_map_eltsE (S : Sink ω) (F : Formatter σ) :
    PairList → ω → EncState σ → Option (ω × EncState σ)
  | .nil, w, st => some (w, st)
  | .cons k v tl, w, st => do
    let p1 := F.comma st.fmt st.first_line
    let w1 ← S.write_all w p1.2
    let r2 ← serializeE S F k w1 ⟨p1.1, false⟩
    let p3 := F.colon r2.2.fmt
    let w3 ← S.write_all r2.1 p3.2
    let r4 ← serializeE S F v w3 ⟨p3.1, r2.2.first_line⟩
    visit_map_eltsE S F tl r4.1 r4.2
end

/-- to_vec (src/encode.rs, lines 319-329): runs the compact encoder against
an initially empty Vec sink; the Rust code unwraps the io::Result. -/
def to_vec (v : Value) : Option String :=
  (serializeE VecSink CompactFormatter v "" ⟨(), false⟩).map Prod.fst

/-- to_vec_pretty (src/encode.rs, lines 331-341). -/
def to_vec_pretty (v : Value) : Option String :=
  (serializeE VecSink (PrettyFormatter "  ") v "" ⟨0, false⟩).map Prod.fst

/-- The Vec sink's write_all always succeeds, appending to the buffer. -/
theorem VecSink_write (w s : String) : VecSink.write_all w s = some (w ++ s) := rfl

mutual
theorem serializeE_vec (F : Formatter σ) (v : Value) (w : String) (st : EncState σ) :
    serializeE VecSink F v w st
      = some (w ++ (serialize F v st).2, (serialize F v st).1) := by
  cases v with
  | vbool b => simp [serializeE, serialize, VecSink_write]
  | vint n => simp [serializeE, serialize, VecSink_write]
  | vfloat t => simp [serializeE, serialize, VecSink_write]
  | vchar c => simp [serializeE, serialize, VecSink_write]
  | vstr s => simp [serializeE, serialize, VecSink_write]
  | vunit => simp [serializeE, serialize, VecSink_write]
  | vnone => simp [serializeE, serialize, VecSink_write]
  | vsome v =>
    have ih := serializeE_vec F v w st
    simpa [serializeE, serialize] using ih
  | venumUnit n var => simp [serializeE, serialize, VecSink_write]
  | vseq len elems =>
    have ih : ∀ (w' : String) (st' : EncState σ),
        visit_seq_eltsE VecSink F elems w' st'
          = some (w' ++ (visit_seq_elts F elems st').2, (visit_seq_elts F elems st').1) :=
      fun w' st' => visit_seq_eltsE_vec F elems w' st'
    cases len with
    | none => simp [serializeE, serialize, VecSink_write, ih, String.append_assoc]
    | some n =>
      cases n with
      | zero => simp [serializeE, serialize, VecSink_write]
      | succ m => simp [serializeE, serialize, VecSink_write, ih, String.append_assoc]
  | vmap len entries =>
    have ih : ∀ (w' : String) (st' : EncState σ),
        visit_map_eltsE VecSink F entries w' st'
          = some (w' ++ (visit_map_elts F entries st').2, (visit_map_elts F entries st').1) :=
      fun w' st' => visit_map_eltsE_vec F entries w' st'
    cases len with
    | none => simp [serializeE, serialize, VecSink_write, ih, String.append_assoc]
    | some n =>
      cases n with
      | zero => simp [serializeE, serialize, VecSink_write]
      | succ m => simp [serializeE, serialize, VecSink_write, ih, String.append_assoc]
  | venumSeq name variant len elems =>
    have ih : ∀ (w' : String) (st' : EncState σ),
        visit_seq_eltsE VecSink F elems w' st'
          = some (w' ++ (visit_seq_elts F elems st').2, (visit_seq_elts F elems st').1) :=
      fun w' st' => visit_seq_eltsE_vec F elems w' st'
    cases len with
    | none => simp [serializeE, serialize, VecSink_write, ih, String.append_assoc]
    | some n =>
      cases n with
      | zero => simp [serializeE, serialize, VecSink_write, String.append_assoc]
      | succ m => simp [serializeE, serialize, VecSink_write, ih, String.append_assoc]
  | venumMap name variant len entries =>
    have ih : ∀ (w' : String) (st' : EncState σ),
        visit_map_eltsE VecSink F entries w' st'
          = some (w' ++ (visit_map_elts F entries st').2, (visit_map_elts F entries st').1) :=
      fun w' st' => visit_map_eltsE_vec F entries w' st'
    cases len with
    | none => simp [serializeE, serialize, VecSink_write, ih, String.append_assoc]
    | some n =>
      cases n with
      | zero => simp [serializeE, serialize, VecSink_write, String.append_assoc]
      | succ m => simp [serializeE, serialize, VecSink_write, ih, String.append_assoc]

theorem visit_seq_eltsE_vec (F : Formatter σ) (l : ValueList) (w : String) (st : EncState σ) :
    visit_seq_eltsE VecSink F l w st
      = some (w ++ (visit_seq_elts F l st).2, (visit_seq_elts F l st).1) := by
  cases l with
  | nil => simp [visit_seq_eltsE, visit_seq_elts, String.append_empty]
  | cons v tl =>
    have ihv : ∀ (w' : String) (st' : EncState σ),
        serializeE VecSink F v w' st'
          = some (w' ++ (serialize F v st').2, (serialize F v st').1) :=
      fun w' st' => serializeE_vec F v w' st'
    have ihtl : ∀ (w' : String) (st' : EncState σ),
        visit_seq_eltsE VecSink F tl w' st'
          = some (w' ++ (visit_seq_elts F tl st').2, (visit_seq_elts F tl st').1) :=
      fun w' st' => visit_seq_eltsE_vec F tl w' st'
    simp [visit_seq_eltsE, visit_seq_elts, VecSink_write, ihv, ihtl, String.append_assoc]

theorem visit_map_eltsE_vec (F : Formatter σ) (l : PairList) (w : String) (st : EncState σ) :
    visit_map_eltsE VecSink F l w st
      = some (w ++ (visit_map_elts F l st).2, (visit_map_elts F l st).1) := by
  cases l with
  | nil => simp [visit_map_eltsE, visit_map_elts, String.append_empty]
  | cons k v tl =>
    have ihk : ∀ (w' : String) (st' : EncState σ),
        serializeE VecSink F k w' st'
          = some (w' ++ (serialize F k st').2, (serialize F k st').1) :=
      fun w' st' => serializeE_vec F k w' st'
    have ihv : ∀ (w' : String) (st' : EncState σ),
        serializeE VecSink F v w' st'
          = some (w' ++ (serialize F v st').2, (serialize F v st').1) :=
      fun w' st' => serializeE_vec F v w' st'
    have ihtl : ∀ (w' : String) (st' : EncState σ),
        visit_map_eltsE VecSink F tl w' st'
          = some (w' ++ (visit_map_elts F tl st').2, (visit_map_elts F tl st').1) :=
      fun w' st' => visit_map_eltsE_vec F tl w' st'
    simp [visit_map_eltsE, visit_map_elts, VecSink_write, ihk, ihv, ihtl, String.append_assoc]
end

/-- Claim C1 (code bug).  The claim states the first flag is true only for
the element immediately after an open delimiter, so a separator precedes
every later element.  The code violates this: visit_seq_elt sets first_line
back to true after every sequence element, so Formatter.comma is called
with first = true for every element of a sequence and no separator is ever
written.  Concretely, compact encoding of the two-element sequence
[(), ()] yields "[()()]" rather than "[(),()]", and after the encoder has
emitted one element of a sequence its first_line flag is still true. -/
theorem c1_seq_separator_bug :
    encodeCompact (.vseq (some 2) (.cons .vunit (.cons .vunit .nil))) = "[()()]"
      ∧ visit_seq_elts CompactFormatter (.cons .vunit .nil) ⟨(), true⟩
          = (⟨(), true⟩, "()") := by
  exact ⟨rfl, rfl⟩

/-- Claim C2 (code bug).  The claim states visit_enum_unit writes the
variant's name between the ¶ markers; the code passes name (the enum type
name) to emit_escape and ignores the variant, so every unit variant of the
same enum encodes to the same bytes and the encoding is not reversible. -/
theorem c2_enum_unit_type_name_bug :
    encodeCompact (.venumUnit "Foo" "Var1") = "¶Foo¶"
      ∧ encodeCompact (.venumUnit "Foo" "Var2") = "¶Foo¶" := ⟨rfl, rfl⟩

/-- Claim C3 (confirmed).  CompactFormatter.open and close write exactly
the one-character string of the delimiter they are given, comma writes ","
when first is false and nothing when first is true, and colon writes ":". -/
theorem c3_compact_formatter_spec (ch : Char) :
    CompactFormatter.fopen () ch = ((), ch.toString)
      ∧ ch.toString.length = 1
      ∧ CompactFormatter.comma () true = ((), "")
      ∧ CompactFormatter.comma () false = ((), ",")
      ∧ CompactFormatter.colon () = ((), ":")
      ∧ CompactFormatter.close () ch = ((), ch.toString) := by
  refine ⟨rfl, ?_, rfl, rfl, rfl, rfl⟩
  simp [Char.toString]

/-- Claim C4 (confirmed).  PrettyFormatter.open writes the delimiter and
increments the depth; comma writes a newline (preceded by "," unless
first) followed by depth copies of the indent unit; colon writes ": ";
close, entered at depth d + 1, writes a newline, decrements the depth to
d, writes d copies of the indent unit, then the delimiter, so the closing
bracket sits one indent level below the scope's contents. -/
theorem c4_pretty_formatter_spec (u : String) (d : Nat) (ch : Char) :
    (PrettyFormatter u).fopen d ch = (d + 1, ch.toString)
      ∧ (PrettyFormatter u).comma d true = (d, "\n" ++ indent d u)
      ∧ (PrettyFormatter u).comma d false = (d, ",\n" ++ indent d u)
      ∧ (PrettyFormatter u).colon d = (d, ": ")
      ∧ (PrettyFormatter u).close (d + 1) ch
          = (d, "\n" ++ indent d u ++ ch.toString) := by
  refine ⟨rfl, by simp [PrettyFormatter], by simp [PrettyFormatter], rfl, ?_⟩
  simp [PrettyFormatter]

/-- Claim C5 (confirmed).  A sequence whose visitor reports length zero is
written as exactly the two characters "[]" and a zero-length map as "{}",
with the encoder state untouched and no Formatter operation invoked (the
result is uniform in the formatter and its state), under any formatter and
in particular both strategies. -/
theorem c5_empty_collections :
    (∀ (σ : Type) (F : Formatter σ) (st : EncState σ)
        (elems : ValueList) (entries : PairList),
      serialize F (.vseq (some 0) elems) st = (st, "[]")
        ∧ serialize F (.vmap (some 0) entries) st = (st, "{}"))
      ∧ encodeCompact (.vseq (some 0) .nil) = "[]"
      ∧ encodePretty (.vseq (some 0) .nil) = "[]"
      ∧ encodeCompact (.vmap (some 0) .nil) = "{}"
      ∧ encodePretty (.vmap (some 0) .nil) = "{}"
      ∧ "[]".length = 2 ∧ "{}".length = 2 := by
  exact ⟨fun σ F st elems entries => ⟨rfl, rfl⟩, rfl, rfl, rfl, rfl, rfl, rfl⟩

/-- Claim C6 (confirmed).  visit_some serializes the inner value with the
very same encoder, so the encoding of Some x is byte-for-byte the encoding
of x; visit_none delegates to visit_unit and both write exactly "()". -/
theorem c6_option_transparent (σ : Type) (F : Formatter σ) (v : Value)
    (st : EncState σ) :
    serialize F (.vsome v) st = serialize F v st
      ∧ serialize F .vnone st = (st, "()")
      ∧ serialize F .vunit st = (st, "()")
      ∧ encodeCompact (.vsome v) = encodeCompact v
      ∧ encodeCompact .vnone = "()"
      ∧ encodeCompact .vunit = "()" := by
  exact ⟨rfl, rfl, rfl, rfl, rfl, rfl⟩

/-- Claim C7 (confirmed).  visit_enum_seq (resp. visit_enum_map) writes the
same bytes as encoding the one-entry map whose key is the variant name as a
string and whose value is the payload as an ordinary sequence (resp. map),
for every formatter and starting state. -/
theorem c7_enum_payload_one_entry_map (σ : Type) (F : Formatter σ)
    (st : EncState σ) (name variant : String) (len : Option Nat)
    (elems : ValueList) (entries : PairList) :
    (serialize F (.venumSeq name variant len elems) st).2
        = (serialize F (.vmap (some 1)
            (.cons (.vstr variant) (.vseq len elems) .nil)) st).2
      ∧ (serialize F (.venumMap name variant len entries) st).2
        = (serialize F (.vmap (some 1)
            (.cons (.vstr variant) (.vmap len entries) .nil)) st).2 := by
  constructor
  · cases len with
    | none =>
      simp [serialize, visit_map_elts, String.append_assoc, String.append_empty]
    | some n =>
      cases n with
      | zero =>
        simp [serialize, visit_map_elts, String.append_assoc, String.append_empty]
      | succ m =>
        simp [serialize, visit_map_elts, String.append_assoc, String.append_empty]
  · cases len with
    | none =>
      simp [serialize, visit_map_elts, String.append_assoc, String.append_empty]
    | some n =>
      cases n with
      | zero =>
        simp [serialize, visit_map_elts, String.append_assoc, String.append_empty]
      | succ m =>
        simp [serialize, visit_map_elts, String.append_assoc, String.append_empty]

/-- Claim C8 (confirmed).  visit_char writes the character between single
quotes and visit_str the string between double quotes, the contents
verbatim for every possible content, with no escaping: in particular a
string holding a double quote, a backslash and a newline is emitted
byte-for-byte unchanged between the quotes. -/
theorem c8_char_string_verbatim (σ : Type) (F : Formatter σ) (c : Char)
    (s : String) (st : EncState σ) :
    serialize F (.vchar c) st = (st, "'" ++ c.toString ++ "'")
      ∧ serialize F (.vstr s) st = (st, "\"" ++ s ++ "\"")
      ∧ encodeCompact (.vstr "a\"b\\c\nd") = "\"a\"b\\c\nd\"" := by
  exact ⟨rfl, rfl, rfl⟩

/-- Claim C9 (counterexample).  The claim says every construction path of a
Syntax error stamps the true source position; but the generic constructors
and the conversion from framework errors receive no position at all and
stamp the fixed placeholder (0, 0): converting the framework's
UnknownFieldError "c" yields line 0, column 0, whatever byte triggered it,
as does the generic syntax-error constructor. -/
theorem c9_counterexample_placeholder :
    Error.fromDeValueError (.UnknownFieldError "c")
        = .Syntax (.UnknownField "c") 0 0
      ∧ Error.deSyntaxError = .Syntax .ExpectedSomeValue 0 0 := ⟨rfl, rfl⟩

/-- Claim C9 (amended).  The generic deserialization error constructors and
the conversion from framework errors stamp the placeholder position (0, 0)
on the Syntax errors they build (and missing_field_error builds a
MissingField, with no position), rather than the position of the byte that
triggered the error. -/
theorem c9_amended_placeholder_positions (f : String) :
    Error.deSyntaxError = .Syntax .ExpectedSomeValue 0 0
      ∧ Error.endOfStreamError = .Syntax .EOFWhileParsingValue 0 0
      ∧ Error.unknownFieldError f = .Syntax (.UnknownField f) 0 0
      ∧ Error.missingFieldError f = .MissingField f
      ∧ Error.fromDeValueError .SyntaxError = .Syntax .ExpectedSomeValue 0 0
      ∧ Error.fromDeValueError .EndOfStreamError
          = .Syntax .EOFWhileParsingValue 0 0
      ∧ Error.fromDeValueError (.UnknownFieldError f)
          = .Syntax (.UnknownField f) 0 0
      ∧ Error.fromDeValueError (.MissingFieldError f) = .MissingField f := by
  exact ⟨rfl, rfl, rfl, rfl, rfl, rfl, rfl, rfl⟩

/-- Claim C10 (confirmed).  With the Vec sink, whose write_all always
succeeds, the fallible encoder returns some buffer for every value under
both strategies — the io::Result unwrapped by to_vec and to_vec_pretty is
never an error — and the buffer is exactly the encoding of the value. -/
theorem c10_to_vec_never_fails (v : Value) :
    to_vec v = some (encodeCompact v)
      ∧ to_vec_pretty v = some (encodePretty v) := by
  constructor
  · simp [to_vec, encodeCompact, serializeE_vec, String.empty_append]
  · simp [to_vec_pretty, encodePretty, serializeE_vec, String.empty_append]
